import Mathlib

/-!
Shallow embedding of the two geometry generators of this repository:
`qiskit_metal/qtl_packages/turtle_qubit.py` (class `TurtleQubit`) and
`qiskit_metal/qtl_packages/xy_tip.py` (class `XYTip`).

Shapes are modelled as subsets of the real plane.  The host geometry
library (`draw`, backed by shapely) is idealized as exact set-level
constructive geometry:
  * `Point(c).buffer(r)` is the closed disk of radius `r` around `c`
    (membership is stated with squared distances, so no square roots
    are needed);
  * `.buffer(r)` on an arbitrary shape is the closed `r`-neighbourhood
    (the Minkowski sum with the closed disk; the `resolution`,
    `cap_style` and `join_style` arguments of the library select a
    polygonal approximation of, resp. the end-cap treatment of, this
    ideal set and are abstracted away);
  * `union` / `intersection` / `subtract` are set union, intersection
    and difference;
  * `rotate` (degrees, about the origin) and `translate` are images of
    the corresponding affine maps;
  * `Polygon [v0, .., vn]` for an explicit vertex list is the region
    enclosed by the vertex loop; the concrete polygons appearing in the
    sources are written out directly as membership predicates (the
    axis-aligned ones as coordinate ranges, the taper outlines as a
    union of their rectangle and trapezoid parts, the claw wedge as the
    triangle fan over its vertex list).
Scalar options (`self.options`, after unit parsing) are records of real
numbers; the host design state enters only through `design.render_mode`,
modelled as a string parameter.
-/

noncomputable section

/-- A point of the plane. -/
abbrev Pt := ℝ × ℝ

/-- Squared euclidean distance between two points. -/
def sqDist (a b : Pt) : ℝ := (a.1 - b.1) ^ 2 + (a.2 - b.2) ^ 2

/-- `s.buffer(r)`: the closed `r`-neighbourhood of the shape `s`. -/
def buffer (s : Set Pt) (r : ℝ) : Set Pt := {q | ∃ p ∈ s, sqDist q p ≤ r ^ 2}

/-- `draw.Point(c).buffer(r)`: the closed disk of radius `r` around `c`. -/
def diskAt (c : Pt) (r : ℝ) : Set Pt := buffer {c} r

/-- `draw.Point(c).buffer(r).boundary`: the circle of radius `r` around `c`. -/
def circleAt (c : Pt) (r : ℝ) : Set Pt := {q | sqDist q c = r ^ 2}

/-- `draw.rectangle(w, h)`: the axis-aligned `w × h` rectangle centered at the origin. -/
def rectangle (w h : ℝ) : Set Pt := {q | |q.1| ≤ w / 2 ∧ |q.2| ≤ h / 2}

/-- `draw.translate(·, xoff, yoff)` acting on a point. -/
def translatePt (xoff yoff : ℝ) (q : Pt) : Pt := (q.1 + xoff, q.2 + yoff)

/-- `draw.translate(s, xoff, yoff)` acting on a shape. -/
def translateS (xoff yoff : ℝ) (s : Set Pt) : Set Pt := translatePt xoff yoff '' s

/-- `draw.rotate(·, θ, origin=(0,0))` acting on a point; `θ` is in degrees. -/
def rotPt (θ : ℝ) (q : Pt) : Pt :=
  (Real.cos (θ * Real.pi / 180) * q.1 - Real.sin (θ * Real.pi / 180) * q.2,
   Real.sin (θ * Real.pi / 180) * q.1 + Real.cos (θ * Real.pi / 180) * q.2)

/-- `draw.rotate(s, θ, origin=(0,0))` acting on a shape; `θ` is in degrees. -/
def rotateS (θ : ℝ) (s : Set Pt) : Set Pt := rotPt θ '' s

/-- The final chip-frame transform shared by all `make` passes:
`objects = draw.rotate(objects, rotation, origin=(0,0))` followed by
`objects = draw.translate(objects, xoff=pos_x, yoff=pos_y)`. -/
def chipTransform (rotation posx posy : ℝ) (s : Set Pt) : Set Pt :=
  translateS posx posy (rotateS rotation s)

/-- The chip-frame transform acting on a single point (used for pin anchors). -/
def chipPt (rotation posx posy : ℝ) (q : Pt) : Pt :=
  translatePt posx posy (rotPt rotation q)

/-- Filled triangle on three vertices (all convex combinations). -/
def triangle (a b c : Pt) : Set Pt :=
  {q | ∃ α β γ : ℝ, 0 ≤ α ∧ 0 ≤ β ∧ 0 ≤ γ ∧ α + β + γ = 1 ∧
    q.1 = α * a.1 + β * b.1 + γ * c.1 ∧ q.2 = α * a.2 + β * b.2 + γ * c.2}

/-- `draw.Polygon([a, b, c, d])`, modelled as the triangle fan over the vertex list. -/
def quadFan (a b c d : Pt) : Set Pt := triangle a b c ∪ triangle a c d

/-- One registered geometry entry (`self.add_qgeometry(kind, {name: shape}, ...)`).
Fields in order: table kind, shape name, the shape, the `subtract` flag,
the `layer` argument, and the `width` argument (junction tables only, else 0). -/
structure GeomEntry where
  kind : String
  name : String
  shape : Set Pt
  sub : Bool
  layer : ℕ
  width : ℝ

/-- One registered pin (`self.add_pin(name, line.coords, width)`);
`a`, `b` are the two endpoints of the anchor line. -/
structure PinEntry where
  name : String
  a : Pt
  b : Pt
  width : ℝ

namespace TurtleQubit

/-- Scalar options of `TurtleQubit` (after unit parsing), in the order
`rad_i`, `gap`, `jj_w`, `pos_x`, `pos_y`, `rotation`. -/
structure Opts where
  rad_i : ℝ
  gap : ℝ
  jj_w : ℝ
  pos_x : ℝ
  pos_y : ℝ
  rotation : ℝ

/-- Per-connection-pad options, in the order `res_arc`, `res_dist`, `res_ext`,
`res_angle`, `res_claw_width`, `res_claw_rounding`, `res_s`, `res_g_s`,
`cpw_width`, `cpw_gap`, `res_g`. -/
structure PadOpts where
  res_arc : ℝ
  res_dist : ℝ
  res_ext : ℝ
  res_angle : ℝ
  res_claw_width : ℝ
  res_claw_rounding : ℝ
  res_s : ℝ
  res_g_s : ℝ
  cpw_width : ℝ
  cpw_gap : ℝ
  res_g : Bool

/-! ### `make_turtle` -/

/-- `jj_port = draw.rectangle(p.jj_w, 1e-3)`. -/
def jj_port (p : Opts) : Set Pt := rectangle p.jj_w 1e-3

/-- `jj_p1 = draw.translate(jj_p, xoff=0, yoff=-(p.rad_i))`. -/
def jj_p1 (p : Opts) : Set Pt := translateS 0 (-p.rad_i) (jj_port p)

/-- `jj_p2 = draw.translate(jj_p, xoff=0, yoff=-(p.rad_i + p.gap))`. -/
def jj_p2 (p : Opts) : Set Pt := translateS 0 (-(p.rad_i + p.gap)) (jj_port p)

/-- The inner qubit island of `make_turtle` in the local frame:
`draw.Point(0,0).buffer(p.rad_i)`, unioned with `jj_p1` when
`design.render_mode == 'simulate'`. -/
def inner_pad (mode : String) (p : Opts) : Set Pt :=
  if mode = "simulate" then diskAt (0, 0) p.rad_i ∪ jj_p1 p
  else diskAt (0, 0) p.rad_i

/-- The qubit pocket of `make_turtle` in the local frame:
`draw.Point(0,0).buffer(p.rad_i + p.gap)`, with `jj_p2` subtracted when
`design.render_mode == 'simulate'`. -/
def pocket (mode : String) (p : Opts) : Set Pt :=
  if mode = "simulate" then diskAt (0, 0) (p.rad_i + p.gap) \ jj_p2 p
  else diskAt (0, 0) (p.rad_i + p.gap)

/-- Endpoints of `rect_jj = draw.LineString([(0, -(rad_i+gap-0.5e-3)), (0, -(rad_i+0.5e-3))])`. -/
def rect_jj_a (p : Opts) : Pt := (0, -(p.rad_i + p.gap - 0.5e-3))

/-- Second endpoint of `rect_jj`. -/
def rect_jj_b (p : Opts) : Pt := (0, -(p.rad_i + 0.5e-3))

/-- The registered `'Qubit'` shape (after the chip-frame transform). -/
def innerPadFinal (mode : String) (p : Opts) : Set Pt :=
  chipTransform p.rotation p.pos_x p.pos_y (inner_pad mode p)

/-- The registered `'Pocket'` shape (after the chip-frame transform). -/
def pocketFinal (mode : String) (p : Opts) : Set Pt :=
  chipTransform p.rotation p.pos_x p.pos_y (pocket mode p)

/-! ### `make_claw` (the plain, ungrounded claw) -/

/-- Radius of the circle `claw_rad` is cut from:
`draw.Point(0,0).buffer(p.rad_i + pc.res_dist + 0.5*pc.res_claw_width)`. -/
def clawCircleRad (p : Opts) (pc : PadOpts) : ℝ :=
  p.rad_i + pc.res_dist + 0.5 * pc.res_claw_width

/-- `r = p.rad_i + pc.res_dist + pc.res_claw_width`. -/
def rDiv (p : Opts) (pc : PadOpts) : ℝ := p.rad_i + pc.res_dist + pc.res_claw_width

/-- `theta = pc.res_arc / r`. -/
def theta (p : Opts) (pc : PadOpts) : ℝ := pc.res_arc / rDiv p pc

/-- `res_angle = pc.res_angle * pi / 180` (radians). -/
def resAngleRad (pc : PadOpts) : ℝ := pc.res_angle * Real.pi / 180

/-- The wedge polygon `claw_inter` of `make_claw` (vertex list as in the
source, including the `sin(pi/2 + res_angle)` in the third vertex). -/
def claw_inter (p : Opts) (pc : PadOpts) : Set Pt :=
  quadFan (0, 0)
    (rDiv p pc * Real.cos (-(Real.pi / 2) + resAngleRad pc - theta p pc / 2),
     rDiv p pc * Real.sin (-(Real.pi / 2) + resAngleRad pc - theta p pc / 2))
    ((rDiv p pc + pc.res_ext) * Real.cos (-(Real.pi / 2) + resAngleRad pc),
     (rDiv p pc + pc.res_ext) * Real.sin (Real.pi / 2 + resAngleRad pc))
    (rDiv p pc * Real.cos (-(Real.pi / 2) + resAngleRad pc + theta p pc / 2),
     rDiv p pc * Real.sin (-(Real.pi / 2) + resAngleRad pc + theta p pc / 2))

/-- `claw_rad = (circle).intersection(claw_inter)`: the claw arc. -/
def claw_rad (p : Opts) (pc : PadOpts) : Set Pt :=
  circleAt (0, 0) (clawCircleRad p pc) ∩ claw_inter p pc

/-- `res_claw = claw_rad.buffer(0.5*pc.res_claw_width, ...)`: the stroked claw ring. -/
def clawStroke (p : Opts) (pc : PadOpts) : Set Pt :=
  buffer (claw_rad p pc) (0.5 * pc.res_claw_width)

/-- Vertical offset applied to `cpw_arm`, `port_line` and `cpw_gap` in `make_claw`:
`yoff = -(p.rad_i + pc.res_dist + 0.5*(pc.res_claw_width + pc.res_ext))`. -/
def armYoff (p : Opts) (pc : PadOpts) : ℝ :=
  -(p.rad_i + pc.res_dist + 0.5 * (pc.res_claw_width + pc.res_ext))

/-- `cpw_arm` after its translate-then-rotate placement in `make_claw`. -/
def cpw_arm (p : Opts) (pc : PadOpts) : Set Pt :=
  rotateS pc.res_angle (translateS 0 (armYoff p pc)
    (rectangle pc.cpw_width (pc.res_ext + 0.5 * pc.res_claw_width)))

/-- First endpoint of `port_line` after its translate-then-rotate placement. -/
def portA (p : Opts) (pc : PadOpts) : Pt :=
  rotPt pc.res_angle (translatePt 0 (armYoff p pc)
    (pc.cpw_width / 2, -(pc.res_ext + pc.res_claw_width / 2) / 2))

/-- Second endpoint of `port_line` after its translate-then-rotate placement. -/
def portB (p : Opts) (pc : PadOpts) : Pt :=
  rotPt pc.res_angle (translatePt 0 (armYoff p pc)
    (-(pc.cpw_width / 2), -(pc.res_ext + pc.res_claw_width / 2) / 2))

/-- `claw_gap = res_claw.buffer(pc.res_s, ...)` (computed from the unrounded stroke). -/
def claw_gap (p : Opts) (pc : PadOpts) : Set Pt := buffer (clawStroke p pc) pc.res_s

/-- `cpw_gap` rectangle after its translate-then-rotate placement in `make_claw`. -/
def cpw_gap (p : Opts) (pc : PadOpts) : Set Pt :=
  rotateS pc.res_angle (translateS 0 (armYoff p pc)
    (rectangle (pc.cpw_width + 2 * pc.cpw_gap) (pc.res_ext + 0.5 * pc.res_claw_width)))

/-- The corner-rounding sequence of `make_claw` lines 158-161, as a function of
the shape `s` being rounded and the rounding radius `ρ`:
`cutout = subtract(s.buffer(ρ), s)`; `cutout_buffer = cutout.buffer(ρ)`;
result `= s.intersection(subtract(s.buffer(2ρ), cutout_buffer).buffer(ρ))`. -/
def filletSeq (s : Set Pt) (ρ : ℝ) : Set Pt :=
  s ∩ buffer (buffer s (2 * ρ) \ buffer (buffer s ρ \ s) ρ) ρ

/-- The additive claw shape of `make_claw` in the local frame:
the rounded stroke unioned with `cpw_arm`. -/
def res_claw (p : Opts) (pc : PadOpts) : Set Pt :=
  filletSeq (clawStroke p pc) pc.res_claw_rounding ∪ cpw_arm p pc

/-- The subtractive gap shape of `make_claw` in the local frame:
`res_gap = draw.union(claw_gap, cpw_gap)`. -/
def res_gap (p : Opts) (pc : PadOpts) : Set Pt := claw_gap p pc ∪ cpw_gap p pc

/-- The registered `'res_claw'` shape of `make_claw` (chip frame). -/
def resClawFinal (p : Opts) (pc : PadOpts) : Set Pt :=
  chipTransform p.rotation p.pos_x p.pos_y (res_claw p pc)

/-- The registered `'poly5'` shape of `make_claw` (chip frame). -/
def resGapFinal (p : Opts) (pc : PadOpts) : Set Pt :=
  chipTransform p.rotation p.pos_x p.pos_y (res_gap p pc)

/-- First pin endpoint registered by `make_claw` (chip frame). -/
def portAFinal (p : Opts) (pc : PadOpts) : Pt :=
  chipPt p.rotation p.pos_x p.pos_y (portA p pc)

/-- Second pin endpoint registered by `make_claw` (chip frame). -/
def portBFinal (p : Opts) (pc : PadOpts) : Pt :=
  chipPt p.rotation p.pos_x p.pos_y (portB p pc)

/-! ### `make_grounded_claw` (the grounded claw, `res_g = True`) -/

/-- Radius of the circle cut in `make_grounded_claw`:
`p.rad_i + pc.res_dist + 0.5*pc.res_claw_width + pc.res_s + pc.res_g_s`. -/
def clawCircleRadG (p : Opts) (pc : PadOpts) : ℝ :=
  p.rad_i + pc.res_dist + 0.5 * pc.res_claw_width + pc.res_s + pc.res_g_s

/-- `r = p.rad_i + pc.res_dist + pc.res_claw_width + pc.res_s` in `make_grounded_claw`. -/
def rDivG (p : Opts) (pc : PadOpts) : ℝ :=
  p.rad_i + pc.res_dist + pc.res_claw_width + pc.res_s

/-- `theta = pc.res_arc / r` in `make_grounded_claw`. -/
def thetaG (p : Opts) (pc : PadOpts) : ℝ := pc.res_arc / rDivG p pc

/-- The wedge polygon `claw_inter` of `make_grounded_claw`. -/
def claw_interG (p : Opts) (pc : PadOpts) : Set Pt :=
  quadFan (0, 0)
    (rDivG p pc * Real.cos (-(Real.pi / 2) + resAngleRad pc - thetaG p pc / 2),
     rDivG p pc * Real.sin (-(Real.pi / 2) + resAngleRad pc - thetaG p pc / 2))
    ((rDivG p pc + pc.res_ext) * Real.cos (-(Real.pi / 2) + resAngleRad pc),
     (rDivG p pc + pc.res_ext) * Real.sin (Real.pi / 2 + resAngleRad pc))
    (rDivG p pc * Real.cos (-(Real.pi / 2) + resAngleRad pc + thetaG p pc / 2),
     rDivG p pc * Real.sin (-(Real.pi / 2) + resAngleRad pc + thetaG p pc / 2))

/-- `claw_rad` of `make_grounded_claw`. -/
def claw_radG (p : Opts) (pc : PadOpts) : Set Pt :=
  circleAt (0, 0) (clawCircleRadG p pc) ∩ claw_interG p pc

/-- The stroked claw ring of `make_grounded_claw`. -/
def clawStrokeG (p : Opts) (pc : PadOpts) : Set Pt :=
  buffer (claw_radG p pc) (0.5 * pc.res_claw_width)

/-- Vertical offset applied to `cpw_arm`, `port_line` and `cpw_gap` in
`make_grounded_claw`:
`yoff = -(p.rad_i + pc.res_dist + 0.5*(pc.res_claw_width + pc.res_ext) + pc.res_s + pc.res_g_s)`. -/
def armYoffG (p : Opts) (pc : PadOpts) : ℝ :=
  -(p.rad_i + pc.res_dist + 0.5 * (pc.res_claw_width + pc.res_ext) + pc.res_s + pc.res_g_s)

/-- `cpw_arm` after its translate-then-rotate placement in `make_grounded_claw`. -/
def cpw_armG (p : Opts) (pc : PadOpts) : Set Pt :=
  rotateS pc.res_angle (translateS 0 (armYoffG p pc)
    (rectangle pc.cpw_width (pc.res_ext + 0.5 * pc.res_claw_width)))

/-- First `port_line` endpoint of `make_grounded_claw`
(`end_of_coupler = -(pc.res_ext + pc.res_claw_width/2)/2`). -/
def portAG (p : Opts) (pc : PadOpts) : Pt :=
  rotPt pc.res_angle (translatePt 0 (armYoffG p pc)
    (pc.cpw_width / 2, -(pc.res_ext + pc.res_claw_width / 2) / 2))

/-- Second `port_line` endpoint of `make_grounded_claw`. -/
def portBG (p : Opts) (pc : PadOpts) : Pt :=
  rotPt pc.res_angle (translatePt 0 (armYoffG p pc)
    (-(pc.cpw_width / 2), -(pc.res_ext + pc.res_claw_width / 2) / 2))

/-- `claw_gap = res_claw.buffer(pc.res_s, ...)` in `make_grounded_claw`. -/
def claw_gapG (p : Opts) (pc : PadOpts) : Set Pt := buffer (clawStrokeG p pc) pc.res_s

/-- `cpw_gap` rectangle after its placement in `make_grounded_claw`. -/
def cpw_gapG (p : Opts) (pc : PadOpts) : Set Pt :=
  rotateS pc.res_angle (translateS 0 (armYoffG p pc)
    (rectangle (pc.cpw_width + 2 * pc.cpw_gap) (pc.res_ext + 0.5 * pc.res_claw_width)))

/-- The additive claw shape of `make_grounded_claw` in the local frame:
`res_claw = draw.union(res_claw, cpw_arm)` — note that, unlike `make_claw`,
no corner-rounding step is applied to the stroke. -/
def res_clawG (p : Opts) (pc : PadOpts) : Set Pt := clawStrokeG p pc ∪ cpw_armG p pc

/-- The subtractive gap shape of `make_grounded_claw` in the local frame. -/
def res_gapG (p : Opts) (pc : PadOpts) : Set Pt := claw_gapG p pc ∪ cpw_gapG p pc

/-- The registered `'res_claw'` shape of `make_grounded_claw` (chip frame). -/
def resClawGFinal (p : Opts) (pc : PadOpts) : Set Pt :=
  chipTransform p.rotation p.pos_x p.pos_y (res_clawG p pc)

/-- The registered `'poly5'` shape of `make_grounded_claw` (chip frame). -/
def resGapGFinal (p : Opts) (pc : PadOpts) : Set Pt :=
  chipTransform p.rotation p.pos_x p.pos_y (res_gapG p pc)

/-- First pin endpoint registered by `make_grounded_claw` (chip frame). -/
def portAGFinal (p : Opts) (pc : PadOpts) : Pt :=
  chipPt p.rotation p.pos_x p.pos_y (portAG p pc)

/-- Second pin endpoint registered by `make_grounded_claw` (chip frame). -/
def portBGFinal (p : Opts) (pc : PadOpts) : Pt :=
  chipPt p.rotation p.pos_x p.pos_y (portBG p pc)

/-! ### The full `make` pass -/

/-- Geometry registered by `make_turtle`, in registration order. -/
def turtleGeoms (mode : String) (p : Opts) : List GeomEntry :=
  [⟨"poly", "Qubit", innerPadFinal mode p, false, 1, 0⟩,
   ⟨"poly", "Pocket", pocketFinal mode p, false, 1, 0⟩,
   ⟨"junction", "rect_jj",
     {chipPt p.rotation p.pos_x p.pos_y (rect_jj_a p),
      chipPt p.rotation p.pos_x p.pos_y (rect_jj_b p)}, false, 1, p.jj_w⟩]

/-- Geometry registered for one connection pad (grounded or plain claw,
selected by `pc.res_g` as in `TurtleQubit.make`). -/
def clawGeoms (p : Opts) (pc : PadOpts) : List GeomEntry :=
  if pc.res_g then
    [⟨"poly", "res_claw", resClawGFinal p pc, false, 1, 0⟩,
     ⟨"poly", "poly5", resGapGFinal p pc, true, 1, 0⟩]
  else
    [⟨"poly", "res_claw", resClawFinal p pc, false, 1, 0⟩,
     ⟨"poly", "poly5", resGapFinal p pc, true, 1, 0⟩]

/-- Pin registered for one connection pad named `name`. -/
def clawPin (name : String) (p : Opts) (pc : PadOpts) : PinEntry :=
  if pc.res_g then ⟨name, portAGFinal p pc, portBGFinal p pc, pc.cpw_width⟩
  else ⟨name, portAFinal p pc, portBFinal p pc, pc.cpw_width⟩

/-- All geometry registered by one `TurtleQubit.make` pass:
`make_turtle` first, then one claw per connection pad. -/
def makeGeoms (mode : String) (p : Opts) (pads : List (String × PadOpts)) :
    List GeomEntry :=
  turtleGeoms mode p ++ pads.flatMap fun np => clawGeoms p np.2

/-- All pins registered by one `TurtleQubit.make` pass. -/
def makePins (p : Opts) (pads : List (String × PadOpts)) : List PinEntry :=
  pads.map fun np => clawPin np.1 p np.2

end TurtleQubit

namespace XYTip

/-- Scalar options of `XYTip` (after unit parsing), in the order
`trace_width`, `trace_gap`, `lead_length`, `tip_width`, `tip_height`,
`tip_gap`, `taper_height`, `tip_fillet`, `pos_x`, `pos_y`, `orientation`,
`layer`. -/
structure Opts where
  trace_width : ℝ
  trace_gap : ℝ
  lead_length : ℝ
  tip_width : ℝ
  tip_height : ℝ
  tip_gap : ℝ
  taper_height : ℝ
  tip_fillet : ℝ
  pos_x : ℝ
  pos_y : ℝ
  orientation : ℝ
  layer : ℕ

/-- The `xy_tip` polygon of the source (lines 106-116) before rounding:
the region enclosed by the vertex loop, i.e. the union of the pad
rectangle, the taper trapezoid (whose slanted sides interpolate linearly
between the trace half-width at `x = 0` and the tip half-width at
`x = -taper_height`), and the lead rectangle. -/
def outline (p : Opts) : Set Pt :=
  {q | -(p.tip_height + p.taper_height) ≤ q.1 ∧ q.1 ≤ -p.taper_height ∧
       |q.2| ≤ p.tip_width / 2} ∪
  {q | -p.taper_height ≤ q.1 ∧ q.1 ≤ 0 ∧
       |q.2| ≤ p.trace_width / 2 +
         (p.tip_width / 2 - p.trace_width / 2) * (-q.1 / p.taper_height)} ∪
  {q | 0 ≤ q.1 ∧ q.1 ≤ p.lead_length ∧ |q.2| ≤ p.trace_width / 2}

/-- Center of `round_tip_circle_top`. -/
def cTop (p : Opts) : Pt :=
  (-(p.tip_height + p.taper_height - p.tip_fillet), p.tip_width / 2 - p.tip_fillet)

/-- Center of `round_tip_circle_bottom`. -/
def cBot (p : Opts) : Pt :=
  (-(p.tip_height + p.taper_height - p.tip_fillet), -(p.tip_width / 2 - p.tip_fillet))

/-- The top corner square of the rounding construction (lines 119-122):
the axis-aligned rectangle spanned by its four listed vertices. -/
def squareTop (p : Opts) : Set Pt :=
  {q | -(p.tip_height + p.taper_height) ≤ q.1 ∧
       q.1 ≤ -(p.tip_height + p.taper_height - p.tip_fillet) ∧
       p.tip_width / 2 - p.tip_fillet ≤ q.2 ∧ q.2 ≤ p.tip_width / 2}

/-- The bottom corner square of the rounding construction (lines 125-128). -/
def squareBot (p : Opts) : Set Pt :=
  {q | -(p.tip_height + p.taper_height) ≤ q.1 ∧
       q.1 ≤ -(p.tip_height + p.taper_height - p.tip_fillet) ∧
       -(p.tip_width / 2) ≤ q.2 ∧ q.2 ≤ -(p.tip_width / 2 - p.tip_fillet)}

/-- `round_tip_negative_top = subtract(square_top, round_tip_circle_top)`. -/
def round_tip_negative_top (p : Opts) : Set Pt :=
  squareTop p \ diskAt (cTop p) p.tip_fillet

/-- `round_tip_negative_bottom = subtract(square_bottom, round_tip_circle_bottom)`. -/
def round_tip_negative_bottom (p : Opts) : Set Pt :=
  squareBot p \ diskAt (cBot p) p.tip_fillet

/-- The rounded `xy_tip` shape in the local frame:
`xy_tip = subtract(xy_tip, round_tip_negative)`. -/
def xy_tip (p : Opts) : Set Pt :=
  outline p \ (round_tip_negative_top p ∪ round_tip_negative_bottom p)

/-- The `pocket` polygon of the source (lines 135-145): same topology as the
outline, enlarged by `trace_gap` on the lead/neck and `tip_gap` around the pad. -/
def pocket (p : Opts) : Set Pt :=
  {q | -(p.tip_height + p.taper_height + p.tip_gap) ≤ q.1 ∧ q.1 ≤ -p.taper_height ∧
       |q.2| ≤ p.tip_width / 2 + p.tip_gap} ∪
  {q | -p.taper_height ≤ q.1 ∧ q.1 ≤ 0 ∧
       |q.2| ≤ p.trace_width / 2 + p.trace_gap +
         (p.tip_width / 2 + p.tip_gap - (p.trace_width / 2 + p.trace_gap)) *
           (-q.1 / p.taper_height)} ∪
  {q | 0 ≤ q.1 ∧ q.1 ≤ p.lead_length ∧ |q.2| ≤ p.trace_width / 2 + p.trace_gap}

/-- First endpoint of `main_pin_line` in the local frame. -/
def pinA (p : Opts) : Pt := (p.lead_length, p.trace_width / 2)

/-- Second endpoint of `main_pin_line` in the local frame. -/
def pinB (p : Opts) : Pt := (p.lead_length, -(p.trace_width / 2))

/-- The registered `xy_tip` shape (chip frame, rotated by `orientation`). -/
def xyTipFinal (p : Opts) : Set Pt :=
  chipTransform p.orientation p.pos_x p.pos_y (xy_tip p)

/-- The registered `pocket` shape (chip frame). -/
def pocketFinal (p : Opts) : Set Pt :=
  chipTransform p.orientation p.pos_x p.pos_y (pocket p)

/-- Geometry registered by one `XYTip.make` pass, in registration order. -/
def makeGeoms (p : Opts) : List GeomEntry :=
  [⟨"poly", "xy_tip", xyTipFinal p, false, p.layer, 0⟩,
   ⟨"poly", "pocket", pocketFinal p, true, p.layer, 0⟩]

/-- Pins registered by one `XYTip.make` pass: the single pin `'tie'`. -/
def makePins (p : Opts) : List PinEntry :=
  [⟨"tie", chipPt p.orientation p.pos_x p.pos_y (pinA p),
    chipPt p.orientation p.pos_x p.pos_y (pinB p), p.trace_width⟩]

end XYTip

/-! ### Basic lemmas about the geometry primitives -/

theorem sqDist_comm (a b : Pt) : sqDist a b = sqDist b a := by
  simp only [sqDist]; ring

theorem sqDist_self (a : Pt) : sqDist a a = 0 := by
  simp [sqDist]

theorem mem_buffer {q : Pt} {s : Set Pt} {r : ℝ} :
    q ∈ buffer s r ↔ ∃ p ∈ s, sqDist q p ≤ r ^ 2 := Iff.rfl

theorem subset_buffer {s : Set Pt} {r : ℝ} (hr : 0 ≤ r) : s ⊆ buffer s r := by
  intro q hq
  exact ⟨q, hq, by rw [sqDist_self]; positivity⟩

theorem buffer_mono {s t : Set Pt} {r : ℝ} (h : s ⊆ t) : buffer s r ⊆ buffer t r := by
  rintro q ⟨p, hp, hd⟩
  exact ⟨p, h hp, hd⟩

theorem mem_diskAt {q c : Pt} {r : ℝ} : q ∈ diskAt c r ↔ sqDist q c ≤ r ^ 2 := by
  constructor
  · rintro ⟨p, hp, hd⟩
    rw [Set.mem_singleton_iff] at hp
    rwa [hp] at hd
  · intro h
    exact ⟨c, rfl, h⟩

theorem mem_rectangle {q : Pt} {w h : ℝ} :
    q ∈ rectangle w h ↔ |q.1| ≤ w / 2 ∧ |q.2| ≤ h / 2 := Iff.rfl

theorem mem_translateS {q : Pt} {dx dy : ℝ} {s : Set Pt} :
    q ∈ translateS dx dy s ↔ (q.1 - dx, q.2 - dy) ∈ s := by
  constructor
  · rintro ⟨p, hp, rfl⟩
    simpa [translatePt] using hp
  · intro h
    exact ⟨(q.1 - dx, q.2 - dy), h, by simp [translatePt]⟩

theorem translateS_mono {dx dy : ℝ} {s t : Set Pt} (h : s ⊆ t) :
    translateS dx dy s ⊆ translateS dx dy t := Set.image_subset _ h

theorem rotateS_mono {θ : ℝ} {s t : Set Pt} (h : s ⊆ t) :
    rotateS θ s ⊆ rotateS θ t := Set.image_subset _ h

theorem chipTransform_mono {rot px py : ℝ} {s t : Set Pt} (h : s ⊆ t) :
    chipTransform rot px py s ⊆ chipTransform rot px py t :=
  translateS_mono (rotateS_mono h)

theorem rotPt_zero (q : Pt) : rotPt 0 q = q := by
  simp [rotPt]

theorem rotateS_zero (s : Set Pt) : rotateS 0 s = s := by
  have : rotPt 0 = id := funext fun q => rotPt_zero q
  simp [rotateS, this]

theorem translateS_zero (s : Set Pt) : translateS 0 0 s = s := by
  have : translatePt 0 0 = id := funext fun q => by simp [translatePt]
  simp [translateS, this]

theorem chipTransform_zero (s : Set Pt) : chipTransform 0 0 0 s = s := by
  rw [chipTransform, rotateS_zero, translateS_zero]

theorem chipPt_zero (q : Pt) : chipPt 0 0 0 q = q := by
  simp [chipPt, rotPt_zero, translatePt]

/-- Linearity of the rotation map over vector addition. -/
theorem rotPt_add (θ : ℝ) (a b : Pt) :
    rotPt θ (a.1 + b.1, a.2 + b.2) =
      ((rotPt θ a).1 + (rotPt θ b).1, (rotPt θ a).2 + (rotPt θ b).2) := by
  simp only [rotPt]
  exact Prod.ext (by ring) (by ring)

/-- If the squared distance of two points is at most `r ^ 2` with `0 ≤ r`,
both coordinate differences are at most `r` in absolute value. -/
theorem coord_bounds {u v : Pt} {r : ℝ} (h : sqDist u v ≤ r ^ 2) (hr : 0 ≤ r) :
    |u.1 - v.1| ≤ r ∧ |u.2 - v.2| ≤ r := by
  rw [sqDist] at h
  constructor
  · rw [abs_le]
    constructor
    · nlinarith [sq_nonneg (u.2 - v.2), sq_nonneg (u.1 - v.1 + r)]
    · nlinarith [sq_nonneg (u.2 - v.2), sq_nonneg (u.1 - v.1 - r)]
  · rw [abs_le]
    constructor
    · nlinarith [sq_nonneg (u.1 - v.1), sq_nonneg (u.2 - v.2 + r)]
    · nlinarith [sq_nonneg (u.1 - v.1), sq_nonneg (u.2 - v.2 - r)]

/-! ### Concrete parameter sets (the parsed default option values, in mm) -/

/-- The default `TurtleQubit` options: `rad_i` 125um, `gap` 25um, `jj_w` 10um,
position (1mm, 1mm), rotation 0. -/
def tDefault : TurtleQubit.Opts := ⟨0.125, 0.025, 0.01, 1, 1, 0⟩

/-- The default connection-pad options of `TurtleQubit`. -/
def padDefault : TurtleQubit.PadOpts :=
  ⟨0.05, 0.025, 0.025, 90, 0.01, 0.002, 0.006, 0.002, 0.012, 0.012, false⟩

/-- `XYTip` options: trace width 10um (a typical `cpw_width`), trace gap 6um,
lead 10um, tip width 5um, tip height 100um, tip gap 3um, taper 50um,
fillet 1um, position (0, 0), orientation 0, layer 1. -/
def xyDefault : XYTip.Opts := ⟨0.01, 0.006, 0.01, 0.005, 0.1, 0.003, 0.05, 0.001, 0, 0, 0, 1⟩

/-- Turtle options with a positive but tiny ground gap (`gap` = 0.4um),
rotation 0 and position (0, 0). -/
def tSmallGap : TurtleQubit.Opts := ⟨0.125, 0.0004, 0.01, 0, 0, 0⟩

/-- Turtle options with `rad_i` = 100um, used for the arc-angle check. -/
def tRad100 : TurtleQubit.Opts := ⟨0.1, 0.025, 0.01, 0, 0, 0⟩

/-- Pad options with `res_dist` = 20um, used for the arc-angle check. -/
def padDist20 : TurtleQubit.PadOpts :=
  ⟨0.05, 0.02, 0.025, 90, 0.01, 0.002, 0.006, 0.002, 0.012, 0.012, false⟩

/-- Turtle options at the origin with rotation 0. -/
def tOrigin : TurtleQubit.Opts := ⟨0.125, 0.025, 0.01, 0, 0, 0⟩

/-- Pad options with `res_angle` = 0. -/
def padAngle0 : TurtleQubit.PadOpts :=
  ⟨0.05, 0.025, 0.025, 0, 0.01, 0.002, 0.006, 0.002, 0.012, 0.012, false⟩

/-! ### Claim theorems -/

/-- C7: applying the final chip-coordinate transform with rotation 0 degrees
and translation offsets (0,0) leaves every shape unchanged —
`rotate(s, 0, origin=(0,0))` and `translate(s, 0, 0)` are the identity, so
shapes registered with these parameter values equal the local-frame shapes. -/
theorem c7_zero_transform_is_identity :
    ∀ s : Set Pt, rotateS 0 s = s ∧ translateS 0 0 s = s ∧ chipTransform 0 0 0 s = s :=
  fun s => ⟨rotateS_zero s, translateS_zero s, chipTransform_zero s⟩

/-- C10: corner rounding never enlarges a shape — the fillet sequence of
`make_claw` produces a subset of the unrounded stroked claw ring (it ends with
an intersection against the original), and the rounded `XYTip` pad is a subset
of the unrounded taper-and-pad outline (rounding is a pure subtraction), for
all parameter values. -/
theorem c10_rounding_never_enlarges :
    ∀ (p : TurtleQubit.Opts) (pc : TurtleQubit.PadOpts) (xp : XYTip.Opts),
      TurtleQubit.filletSeq (TurtleQubit.clawStroke p pc) pc.res_claw_rounding ⊆
        TurtleQubit.clawStroke p pc ∧
      XYTip.xy_tip xp ⊆ XYTip.outline xp :=
  fun _ _ _ => ⟨Set.inter_subset_left, Set.diff_subset⟩

/-- C9: in `'simulate'` render mode, the island is the `rad_i` disk unioned
with a `jj_w`-wide junction-launch rectangle at its south edge, and the pocket
is the `rad_i + gap` disk with a matching rectangle subtracted at its south
edge; in every other render mode both are the exact unmodified disks. -/
theorem c9_render_mode_branches (p : TurtleQubit.Opts) :
    (TurtleQubit.inner_pad "simulate" p =
        {q : Pt | q.1 ^ 2 + q.2 ^ 2 ≤ p.rad_i ^ 2} ∪
          {q : Pt | |q.1| ≤ p.jj_w / 2 ∧ |q.2 + p.rad_i| ≤ 5e-4} ∧
      TurtleQubit.pocket "simulate" p =
        {q : Pt | q.1 ^ 2 + q.2 ^ 2 ≤ (p.rad_i + p.gap) ^ 2} \
          {q : Pt | |q.1| ≤ p.jj_w / 2 ∧ |q.2 + (p.rad_i + p.gap)| ≤ 5e-4}) ∧
    ∀ mode : String, mode ≠ "simulate" →
      TurtleQubit.inner_pad mode p = {q : Pt | q.1 ^ 2 + q.2 ^ 2 ≤ p.rad_i ^ 2} ∧
      TurtleQubit.pocket mode p =
        {q : Pt | q.1 ^ 2 + q.2 ^ 2 ≤ (p.rad_i + p.gap) ^ 2} := by
  have hdisk : ∀ r : ℝ, diskAt (0, 0) r = {q : Pt | q.1 ^ 2 + q.2 ^ 2 ≤ r ^ 2} := by
    intro r
    ext q
    rw [mem_diskAt]
    simp [sqDist]
  have hrect : ∀ d : ℝ,
      translateS 0 (-d) (TurtleQubit.jj_port p) =
        {q : Pt | |q.1| ≤ p.jj_w / 2 ∧ |q.2 + d| ≤ 5e-4} := by
    intro d
    ext q
    rw [mem_translateS]
    unfold TurtleQubit.jj_port
    rw [mem_rectangle]
    norm_num [sub_neg_eq_add]
  refine ⟨⟨?_, ?_⟩, ?_⟩
  · rw [TurtleQubit.inner_pad, if_pos rfl, hdisk, TurtleQubit.jj_p1, hrect]
  · rw [TurtleQubit.pocket, if_pos rfl, hdisk, TurtleQubit.jj_p2, hrect]
  · intro mode hm
    rw [TurtleQubit.inner_pad, if_neg hm, TurtleQubit.pocket, if_neg hm, hdisk, hdisk]
    exact ⟨rfl, rfl⟩

/-- Witness for C9: the branch equalities evaluated at the default options,
in `'simulate'` mode and in an ordinary (`'draw'`) mode. -/
theorem c9_render_mode_branches_witness :
    TurtleQubit.inner_pad "simulate" tDefault =
        {q : Pt | q.1 ^ 2 + q.2 ^ 2 ≤ tDefault.rad_i ^ 2} ∪
          {q : Pt | |q.1| ≤ tDefault.jj_w / 2 ∧ |q.2 + tDefault.rad_i| ≤ 5e-4} ∧
      TurtleQubit.inner_pad "draw" tDefault =
        {q : Pt | q.1 ^ 2 + q.2 ^ 2 ≤ tDefault.rad_i ^ 2} ∧
      TurtleQubit.pocket "draw" tDefault =
        {q : Pt | q.1 ^ 2 + q.2 ^ 2 ≤ (tDefault.rad_i + tDefault.gap) ^ 2} := by
  have h := c9_render_mode_branches tDefault
  have hd := h.2 "draw" (by decide)
  exact ⟨h.1.1, hd.1, hd.2⟩

/-- C8: `XYTip.make` registers exactly one pin, named `'tie'`, of width
`trace_width`, whose anchor line has the local-frame endpoints
`(lead_length, trace_width/2)` and `(lead_length, -trace_width/2)` (carried
through the orientation rotation and position translation). -/
theorem c8_xy_tip_single_pin (p : XYTip.Opts) :
    XYTip.makePins p =
      [⟨"tie",
        chipPt p.orientation p.pos_x p.pos_y (p.lead_length, p.trace_width / 2),
        chipPt p.orientation p.pos_x p.pos_y (p.lead_length, -(p.trace_width / 2)),
        p.trace_width⟩] := rfl

/-- C4: two `make` passes with identical option values and identical host
render mode register identical geometry (same shapes, kinds, layers and
subtract flags) and identical pins — the construction is deterministic and
carries no state between invocations. -/
theorem c4_make_deterministic (mode mode' : String) (p p' : TurtleQubit.Opts)
    (pads pads' : List (String × TurtleQubit.PadOpts)) (xp xp' : XYTip.Opts)
    (hm : mode = mode') (hp : p = p') (hpads : pads = pads') (hx : xp = xp') :
    TurtleQubit.makeGeoms mode p pads = TurtleQubit.makeGeoms mode' p' pads' ∧
    TurtleQubit.makePins p pads = TurtleQubit.makePins p' pads' ∧
    XYTip.makeGeoms xp = XYTip.makeGeoms xp' ∧
    XYTip.makePins xp = XYTip.makePins xp' := by
  subst hm; subst hp; subst hpads; subst hx
  exact ⟨rfl, rfl, rfl, rfl⟩

/-- Witness for C4: two passes over the default options coincide. -/
theorem c4_make_deterministic_witness :
    TurtleQubit.makeGeoms "simulate" tDefault [("readout", padDefault)] =
      TurtleQubit.makeGeoms "simulate" tDefault [("readout", padDefault)] ∧
    TurtleQubit.makePins tDefault [("readout", padDefault)] =
      TurtleQubit.makePins tDefault [("readout", padDefault)] ∧
    XYTip.makeGeoms xyDefault = XYTip.makeGeoms xyDefault ∧
    XYTip.makePins xyDefault = XYTip.makePins xyDefault :=
  c4_make_deterministic _ _ _ _ _ _ _ _ rfl rfl rfl rfl

/-- Counterexample for C3: at `rad_i` = 100um, `res_dist` = 20um,
`res_claw_width` = 10um, `res_arc` = 50um, the computed angle `theta` is
`res_arc / 0.13`, not `res_arc` divided by the 0.125 radius of the circle the
claw arc lies on (the stroked ring's centerline). -/
theorem c3_theta_counterexample :
    TurtleQubit.theta tRad100 padDist20 ≠
      padDist20.res_arc / TurtleQubit.clawCircleRad tRad100 padDist20 := by
  unfold TurtleQubit.theta TurtleQubit.rDiv TurtleQubit.clawCircleRad tRad100 padDist20
  norm_num

/-- C3 (amended): the angular extent `theta` equals `res_arc` divided by the
divisor `r` of the source, which for the plain claw is the centerline-circle
radius plus half the claw width (the stroked ring's outer radius), and for the
grounded claw is the centerline-circle radius plus half the claw width minus
`res_g_s`. -/
theorem c3_theta_amended (p : TurtleQubit.Opts) (pc : TurtleQubit.PadOpts) :
    TurtleQubit.theta p pc =
      pc.res_arc / (TurtleQubit.clawCircleRad p pc + 0.5 * pc.res_claw_width) ∧
    TurtleQubit.thetaG p pc =
      pc.res_arc /
        (TurtleQubit.clawCircleRadG p pc + 0.5 * pc.res_claw_width - pc.res_g_s) := by
  constructor
  · rw [TurtleQubit.theta]
    congr 1
    unfold TurtleQubit.rDiv TurtleQubit.clawCircleRad
    ring
  · rw [TurtleQubit.thetaG]
    congr 1
    unfold TurtleQubit.rDivG TurtleQubit.clawCircleRadG
    ring

/-- Counterexample for C1: with all gaps and margins positive (`gap` = 0.4um)
in `'simulate'` render mode, the point `(0, -0.1254)` lies in the registered
`'Qubit'` island (inside its junction-launch rectangle) but not in the
registered `'Pocket'` cutout (it falls in the rectangle subtracted from the
pocket), so the cutout does not contain the conductor. -/
theorem c1_containment_counterexample :
    0 < tSmallGap.rad_i ∧ 0 < tSmallGap.gap ∧ 0 < tSmallGap.jj_w ∧
    ((0 : ℝ), (-0.1254 : ℝ)) ∈ TurtleQubit.innerPadFinal "simulate" tSmallGap ∧
    ((0 : ℝ), (-0.1254 : ℝ)) ∉ TurtleQubit.pocketFinal "simulate" tSmallGap := by
  refine ⟨by norm_num [tSmallGap], by norm_num [tSmallGap], by norm_num [tSmallGap], ?_, ?_⟩
  · show ((0 : ℝ), (-0.1254 : ℝ)) ∈
      chipTransform tSmallGap.rotation tSmallGap.pos_x tSmallGap.pos_y
        (TurtleQubit.inner_pad "simulate" tSmallGap)
    have h0 : tSmallGap.rotation = 0 ∧ tSmallGap.pos_x = 0 ∧ tSmallGap.pos_y = 0 :=
      ⟨rfl, rfl, rfl⟩
    rw [h0.1, h0.2.1, h0.2.2, chipTransform_zero]
    rw [TurtleQubit.inner_pad, if_pos rfl]
    right
    rw [TurtleQubit.jj_p1, mem_translateS]
    unfold TurtleQubit.jj_port
    rw [mem_rectangle]
    norm_num [tSmallGap, abs_le]
  · show ((0 : ℝ), (-0.1254 : ℝ)) ∉
      chipTransform tSmallGap.rotation tSmallGap.pos_x tSmallGap.pos_y
        (TurtleQubit.pocket "simulate" tSmallGap)
    have h0 : tSmallGap.rotation = 0 ∧ tSmallGap.pos_x = 0 ∧ tSmallGap.pos_y = 0 :=
      ⟨rfl, rfl, rfl⟩
    rw [h0.1, h0.2.1, h0.2.2, chipTransform_zero]
    rw [TurtleQubit.pocket, if_pos rfl]
    rintro ⟨-, hnot⟩
    apply hnot
    rw [TurtleQubit.jj_p2, mem_translateS]
    unfold TurtleQubit.jj_port
    rw [mem_rectangle]
    norm_num [tSmallGap, abs_le]

/-- C1 (amended): each subtractive cutout contains its additive conductor —
the `'Pocket'` contains the `'Qubit'` island, each claw's `'poly5'` gap
contains its `'res_claw'` (plain and grounded variants), and the `XYTip`
`'pocket'` contains the `'xy_tip'` — for every parameter set with positive
gaps and margins, provided additionally that in `'simulate'` render mode the
junction-launch rectangles do not interfere: `gap` exceeds the fixed 1e-3
junction-rectangle height and the island-side rectangle fits inside the
pocket disk. -/
theorem c1_cutouts_contain_conductors (mode : String) (p : TurtleQubit.Opts)
    (pc : TurtleQubit.PadOpts) (xp : XYTip.Opts)
    (hrad : 0 ≤ p.rad_i) (hgap : 0 ≤ p.gap)
    (hsim : mode = "simulate" → 1e-3 < p.gap ∧
      (p.jj_w / 2) ^ 2 + (p.rad_i + 0.5e-3) ^ 2 ≤ (p.rad_i + p.gap) ^ 2)
    (hres_s : 0 ≤ pc.res_s) (hcpwg : 0 ≤ pc.cpw_gap)
    (htaper : 0 < xp.taper_height) (htg : 0 ≤ xp.trace_gap) (htipg : 0 ≤ xp.tip_gap) :
    TurtleQubit.innerPadFinal mode p ⊆ TurtleQubit.pocketFinal mode p ∧
    TurtleQubit.resClawFinal p pc ⊆ TurtleQubit.resGapFinal p pc ∧
    TurtleQubit.resClawGFinal p pc ⊆ TurtleQubit.resGapGFinal p pc ∧
    XYTip.xyTipFinal xp ⊆ XYTip.pocketFinal xp := by
  have harm : ∀ yoff : ℝ,
      rotateS pc.res_angle (translateS 0 yoff
          (rectangle pc.cpw_width (pc.res_ext + 0.5 * pc.res_claw_width))) ⊆
        rotateS pc.res_angle (translateS 0 yoff
          (rectangle (pc.cpw_width + 2 * pc.cpw_gap)
            (pc.res_ext + 0.5 * pc.res_claw_width))) := by
    intro yoff
    apply rotateS_mono
    apply translateS_mono
    intro q hq
    rw [mem_rectangle] at hq ⊢
    exact ⟨by linarith [hq.1], hq.2⟩
  refine ⟨chipTransform_mono ?_, chipTransform_mono ?_, chipTransform_mono ?_,
    chipTransform_mono ?_⟩
  · -- Qubit island inside Pocket.
    by_cases hm : mode = "simulate"
    · obtain ⟨hgap1, hjj⟩ := hsim hm
      rw [TurtleQubit.inner_pad, TurtleQubit.pocket, if_pos hm, if_pos hm]
      rintro q (hq | hq)
      · rw [mem_diskAt] at hq
        constructor
        · rw [mem_diskAt]
          nlinarith [hq]
        · intro hq2
          rw [TurtleQubit.jj_p2, mem_translateS] at hq2
          unfold TurtleQubit.jj_port at hq2
          rw [mem_rectangle] at hq2
          have h2 := (coord_bounds hq hrad).2
          rw [sqDist] at hq
          have := abs_le.mp hq2.2
          simp only at this h2
          have h2' := abs_le.mp h2
          simp only [sub_zero] at h2'
          norm_num at this
          linarith [this.2, h2'.1]
      · rw [TurtleQubit.jj_p1, mem_translateS] at hq
        unfold TurtleQubit.jj_port at hq
        rw [mem_rectangle] at hq
        obtain ⟨hx, hy⟩ := hq
        simp only [sub_zero] at hx
        have hx' := abs_le.mp hx
        have hy' := abs_le.mp hy
        norm_num at hy'
        constructor
        · rw [mem_diskAt, sqDist]
          have hxsq : q.1 ^ 2 ≤ (p.jj_w / 2) ^ 2 := by nlinarith [hx'.1, hx'.2]
          have hysq : q.2 ^ 2 ≤ (p.rad_i + 0.5e-3) ^ 2 := by
            nlinarith [hy'.1, hy'.2]
          norm_num
          nlinarith [hxsq, hysq, hjj]
        · intro hq2
          rw [TurtleQubit.jj_p2, mem_translateS] at hq2
          unfold TurtleQubit.jj_port at hq2
          rw [mem_rectangle] at hq2
          have := abs_le.mp hq2.2
          norm_num at this
          linarith [this.2, hy'.1]
    · rw [TurtleQubit.inner_pad, TurtleQubit.pocket, if_neg hm, if_neg hm]
      intro q hq
      rw [mem_diskAt] at hq ⊢
      nlinarith [hq]
  · -- plain claw inside its gap
    rw [TurtleQubit.res_claw, TurtleQubit.res_gap]
    apply Set.union_subset_union
    · exact Set.Subset.trans Set.inter_subset_left (subset_buffer hres_s)
    · exact harm _
  · -- grounded claw inside its gap
    rw [TurtleQubit.res_clawG, TurtleQubit.res_gapG]
    apply Set.union_subset_union
    · exact subset_buffer hres_s
    · exact harm _
  · -- xy_tip inside its pocket
    refine Set.Subset.trans Set.diff_subset ?_
    rintro q ((hq | hq) | hq)
    · left; left
      exact ⟨by linarith [hq.1], hq.2.1, by
        have := abs_le.mp hq.2.2
        rw [abs_le]
        constructor <;> linarith⟩
    · left; right
      refine ⟨hq.1, hq.2.1, ?_⟩
      have ht0 : 0 ≤ -q.1 / xp.taper_height :=
        div_nonneg (by linarith [hq.2.1]) htaper.le
      have ht1 : -q.1 / xp.taper_height ≤ 1 :=
        (div_le_one htaper).mpr (by linarith [hq.1])
      have hb := hq.2.2
      set t := -q.1 / xp.taper_height with htdef
      have key : xp.trace_width / 2 + (xp.tip_width / 2 - xp.trace_width / 2) * t ≤
          xp.trace_width / 2 + xp.trace_gap +
            (xp.tip_width / 2 + xp.tip_gap - (xp.trace_width / 2 + xp.trace_gap)) * t := by
        nlinarith [mul_nonneg htg (by linarith : (0:ℝ) ≤ 1 - t), mul_nonneg htipg ht0]
      linarith [hb, key]
    · right
      exact ⟨hq.1, hq.2.1, by
        have := abs_le.mp hq.2.2
        rw [abs_le]
        constructor <;> linarith⟩

/-- Witness for C1 (amended): the containments at the default option values in
`'simulate'` render mode. -/
theorem c1_cutouts_contain_conductors_witness :
    TurtleQubit.innerPadFinal "simulate" tDefault ⊆
      TurtleQubit.pocketFinal "simulate" tDefault ∧
    TurtleQubit.resClawFinal tDefault padDefault ⊆
      TurtleQubit.resGapFinal tDefault padDefault ∧
    TurtleQubit.resClawGFinal tDefault padDefault ⊆
      TurtleQubit.resGapGFinal tDefault padDefault ∧
    XYTip.xyTipFinal xyDefault ⊆ XYTip.pocketFinal xyDefault :=
  c1_cutouts_contain_conductors "simulate" tDefault padDefault xyDefault
    (by norm_num [tDefault]) (by norm_num [tDefault])
    (fun _ => ⟨by norm_num [tDefault], by norm_num [tDefault]⟩)
    (by norm_num [padDefault]) (by norm_num [padDefault])
    (by norm_num [xyDefault]) (by norm_num [xyDefault]) (by norm_num [xyDefault])

/-- Counterexample for C2: with identical parameter values (`res_angle` 0,
rotation 0, position (0,0)), the point `(0, -0.155)` lies in the coupler
produced by `make_claw` (inside its cpw arm) but not in the coupler produced
by `make_grounded_claw`: the grounded arm is shifted radially outward by
`res_s + res_g_s`, so the two arm geometries are not identical. -/
theorem c2_grounded_flag_counterexample :
    ((0 : ℝ), (-0.155 : ℝ)) ∈ TurtleQubit.resClawFinal tOrigin padAngle0 ∧
    ((0 : ℝ), (-0.155 : ℝ)) ∉ TurtleQubit.resClawGFinal tOrigin padAngle0 := by
  constructor
  · rw [TurtleQubit.resClawFinal, show tOrigin.rotation = 0 from rfl,
      show tOrigin.pos_x = 0 from rfl, show tOrigin.pos_y = 0 from rfl,
      chipTransform_zero]
    right
    rw [TurtleQubit.cpw_arm, show padAngle0.res_angle = 0 from rfl, rotateS_zero,
      mem_translateS, mem_rectangle]
    norm_num [TurtleQubit.armYoff, tOrigin, padAngle0, abs_le]
  · rw [TurtleQubit.resClawGFinal, show tOrigin.rotation = 0 from rfl,
      show tOrigin.pos_x = 0 from rfl, show tOrigin.pos_y = 0 from rfl,
      chipTransform_zero]
    rintro (hstroke | harm)
    · obtain ⟨z, hz, hd⟩ := hstroke
      have hc : sqDist z (0, 0) = TurtleQubit.clawCircleRadG tOrigin padAngle0 ^ 2 := hz.1
      rw [show TurtleQubit.clawCircleRadG tOrigin padAngle0 = 0.163 from by
        norm_num [TurtleQubit.clawCircleRadG, tOrigin, padAngle0]] at hc
      rw [sqDist] at hc
      rw [sqDist] at hd
      norm_num [padAngle0] at hc hd
      nlinarith [hc, hd, sq_nonneg z.1, sq_nonneg (z.2 + 0.163)]
    · rw [TurtleQubit.cpw_armG, show padAngle0.res_angle = 0 from rfl, rotateS_zero,
        mem_translateS, mem_rectangle] at harm
      norm_num [TurtleQubit.armYoffG, tOrigin, padAngle0, abs_le] at harm

/-- C2 (amended): for identical parameter values, switching to the grounded
claw shifts the whole coupler radially outward by `res_s + res_g_s` — the
grounded cpw arm is the plain cpw arm translated by the rotation of
`(0, -(res_s + res_g_s))` through `res_angle`, and likewise both port-line
endpoints — while the arc circle radius grows by `res_s + res_g_s` and the
angle divisor `r` by `res_s`; moreover the grounded path omits the
corner-rounding step entirely (its claw is exactly the unrounded stroke
unioned with the arm, whereas the plain claw is a rounded subset of its
stroke unioned with the arm). Construction order is otherwise the same. -/
theorem c2_grounded_flag_amended (p : TurtleQubit.Opts) (pc : TurtleQubit.PadOpts) :
    TurtleQubit.cpw_armG p pc =
      (fun q : Pt => (q.1 + (rotPt pc.res_angle (0, -(pc.res_s + pc.res_g_s))).1,
                      q.2 + (rotPt pc.res_angle (0, -(pc.res_s + pc.res_g_s))).2)) ''
        TurtleQubit.cpw_arm p pc ∧
    TurtleQubit.portAG p pc =
      ((TurtleQubit.portA p pc).1 + (rotPt pc.res_angle (0, -(pc.res_s + pc.res_g_s))).1,
       (TurtleQubit.portA p pc).2 + (rotPt pc.res_angle (0, -(pc.res_s + pc.res_g_s))).2) ∧
    TurtleQubit.portBG p pc =
      ((TurtleQubit.portB p pc).1 + (rotPt pc.res_angle (0, -(pc.res_s + pc.res_g_s))).1,
       (TurtleQubit.portB p pc).2 + (rotPt pc.res_angle (0, -(pc.res_s + pc.res_g_s))).2) ∧
    TurtleQubit.clawCircleRadG p pc =
      TurtleQubit.clawCircleRad p pc + (pc.res_s + pc.res_g_s) ∧
    TurtleQubit.rDivG p pc = TurtleQubit.rDiv p pc + pc.res_s ∧
    TurtleQubit.res_clawG p pc =
      TurtleQubit.clawStrokeG p pc ∪ TurtleQubit.cpw_armG p pc ∧
    TurtleQubit.res_claw p pc ⊆
      TurtleQubit.clawStroke p pc ∪ TurtleQubit.cpw_arm p pc := by
  refine ⟨?_, ?_, ?_, ?_, ?_, rfl, ?_⟩
  · have hfun : ∀ x : Pt,
        rotPt pc.res_angle (translatePt 0 (TurtleQubit.armYoffG p pc) x) =
          (fun q : Pt => (q.1 + (rotPt pc.res_angle (0, -(pc.res_s + pc.res_g_s))).1,
                          q.2 + (rotPt pc.res_angle (0, -(pc.res_s + pc.res_g_s))).2))
            (rotPt pc.res_angle (translatePt 0 (TurtleQubit.armYoff p pc) x)) := by
      intro x
      unfold rotPt translatePt TurtleQubit.armYoffG TurtleQubit.armYoff
      dsimp only
      refine Prod.ext ?_ ?_
      · dsimp only
        ring
      · dsimp only
        ring
    rw [TurtleQubit.cpw_armG, TurtleQubit.cpw_arm, rotateS, rotateS, translateS,
      translateS, Set.image_image, Set.image_image, Set.image_image]
    exact Set.image_congr fun x _ => hfun x
  · rw [TurtleQubit.portAG, TurtleQubit.portA]
    unfold rotPt translatePt TurtleQubit.armYoffG TurtleQubit.armYoff
    refine Prod.ext ?_ ?_
    · ring
    · ring
  · rw [TurtleQubit.portBG, TurtleQubit.portB]
    unfold rotPt translatePt TurtleQubit.armYoffG TurtleQubit.armYoff
    refine Prod.ext ?_ ?_
    · ring
    · ring
  · unfold TurtleQubit.clawCircleRadG TurtleQubit.clawCircleRad
    ring
  · unfold TurtleQubit.rDivG TurtleQubit.rDiv
    ring
  · exact Set.union_subset_union Set.inter_subset_left (subset_refl _)

/-! ### Geometry of the `XYTip` outline, used for the corner-rounding claims -/

theorem XYTip.mem_outline_x_lower {p : XYTip.Opts} {q : Pt} (h : q ∈ XYTip.outline p)
    (hth : 0 ≤ p.tip_height) (htp : 0 ≤ p.taper_height) :
    -(p.tip_height + p.taper_height) ≤ q.1 := by
  rcases h with ((h | h) | h)
  · exact h.1
  · linarith [h.1]
  · linarith [h.1]

theorem XYTip.mem_outline_x_upper {p : XYTip.Opts} {q : Pt} (h : q ∈ XYTip.outline p)
    (htp : 0 ≤ p.taper_height) (hl : 0 ≤ p.lead_length) : q.1 ≤ p.lead_length := by
  rcases h with ((h | h) | h)
  · linarith [h.2.1]
  · linarith [h.2.1]
  · exact h.2.1

/-- Any outline point at or left of the taper start lies in the band
`|y| ≤ tip_width / 2`. -/
theorem XYTip.mem_outline_pad_band {p : XYTip.Opts} {q : Pt} (h : q ∈ XYTip.outline p)
    (hx : q.1 ≤ -p.taper_height) (htp : 0 < p.taper_height) :
    |q.2| ≤ p.tip_width / 2 := by
  rcases h with ((h | h) | h)
  · exact h.2.2
  · have hq1 : q.1 = -p.taper_height := le_antisymm hx h.1
    have hb := h.2.2
    rw [hq1] at hb
    have hone : -(-p.taper_height) / p.taper_height = 1 := by
      rw [neg_neg]
      exact div_self (ne_of_gt htp)
    rw [hone, mul_one] at hb
    linarith [hb]
  · exfalso
    linarith [h.1, htp]

/-- At the top pad corner, the fillet sequence of `make_claw` carves the
outline down to exactly the inscribed quarter disk: inside the top corner
square its result is the outline intersected with the rounding disk. -/
theorem XYTip.fillet_top_square (p : XYTip.Opts)
    (htaper : 0 < p.taper_height) (hth : 0 < p.tip_height)
    (hf : 0 < p.tip_fillet) (hf2 : 2 * p.tip_fillet < p.tip_width)
    (hfth : 2 * p.tip_fillet < p.tip_height) :
    TurtleQubit.filletSeq (XYTip.outline p) p.tip_fillet ∩ XYTip.squareTop p =
      (XYTip.outline p ∩ XYTip.squareTop p) ∩ diskAt (XYTip.cTop p) p.tip_fillet := by
  have hcx : (XYTip.cTop p).1 = -(p.tip_height + p.taper_height - p.tip_fillet) := rfl
  have hcy : (XYTip.cTop p).2 = p.tip_width / 2 - p.tip_fillet := rfl
  ext u
  constructor
  · rintro ⟨⟨hS, z, ⟨hz2, hznot⟩, hdz⟩, hsq⟩
    refine ⟨⟨hS, hsq⟩, ?_⟩
    rw [mem_diskAt]
    by_contra hdc
    push_neg at hdc
    obtain ⟨hs1, hs2, hs3, hs4⟩ := hsq
    by_cases hzS : z ∈ XYTip.outline p
    · have hcb := coord_bounds hdz hf.le
      have hcb1 := abs_le.mp hcb.1
      have hcb2 := abs_le.mp hcb.2
      have hz1le : z.1 ≤ -(p.tip_height + p.taper_height) + 2 * p.tip_fillet := by
        linarith [hcb1.1]
      have hz1lt : z.1 < -p.taper_height := by linarith
      have hzw := abs_le.mp (XYTip.mem_outline_pad_band hzS hz1lt.le htaper)
      by_cases hc1 : z.1 < -(p.tip_height + p.taper_height - p.tip_fillet)
      · -- the point z is too far left: push it out through the left wall
        refine hznot ⟨(z.1 - p.tip_fillet, z.2), ⟨⟨z, hzS, ?_⟩, ?_⟩, ?_⟩
        · have heq : sqDist (z.1 - p.tip_fillet, z.2) z = p.tip_fillet ^ 2 := by
            rw [sqDist]; ring
          rw [heq]
        · intro hw
          have hlow := XYTip.mem_outline_x_lower hw hth.le htaper.le
          dsimp only at hlow
          linarith
        · have heq : sqDist z (z.1 - p.tip_fillet, z.2) = p.tip_fillet ^ 2 := by
            rw [sqDist]; ring
          rw [heq]
      · by_cases hc2 : p.tip_width / 2 - p.tip_fillet < z.2
        · -- the point z is too high: push it out through the top wall
          refine hznot ⟨(z.1, z.2 + p.tip_fillet), ⟨⟨z, hzS, ?_⟩, ?_⟩, ?_⟩
          · have heq : sqDist (z.1, z.2 + p.tip_fillet) z = p.tip_fillet ^ 2 := by
              rw [sqDist]; ring
            rw [heq]
          · intro hw
            have hband := XYTip.mem_outline_pad_band hw (by dsimp only; linarith) htaper
            dsimp only at hband
            have hband' := abs_le.mp hband
            linarith [hband'.2]
          · have heq : sqDist z (z.1, z.2 + p.tip_fillet) = p.tip_fillet ^ 2 := by
              rw [sqDist]; ring
            rw [heq]
        · -- z lies in the deep quadrant of the corner, too far from u
          push_neg at hc1 hc2
          rw [sqDist] at hdz
          rw [sqDist, hcx, hcy] at hdc
          have ha : (0:ℝ) ≤ -(p.tip_height + p.taper_height - p.tip_fillet) - u.1 := by
            linarith
          have hb : (0:ℝ) ≤ z.1 - -(p.tip_height + p.taper_height - p.tip_fillet) := by
            linarith
          have hd : (0:ℝ) ≤ u.2 - (p.tip_width / 2 - p.tip_fillet) := by linarith
          have he : (0:ℝ) ≤ p.tip_width / 2 - p.tip_fillet - z.2 := by linarith
          nlinarith [mul_nonneg hb ha, mul_nonneg he hd, sq_nonneg
            (z.1 - -(p.tip_height + p.taper_height - p.tip_fillet)),
            sq_nonneg (p.tip_width / 2 - p.tip_fillet - z.2)]
    · exact hznot ⟨z, ⟨⟨u, hS, by rw [sqDist_comm]; exact hdz⟩, hzS⟩, by
        rw [sqDist_self]; positivity⟩
  · rintro ⟨⟨hS, hsq⟩, hdisk⟩
    rw [mem_diskAt] at hdisk
    refine ⟨⟨hS, XYTip.cTop p, ⟨⟨XYTip.cTop p, ?_, ?_⟩, ?_⟩, hdisk⟩, hsq⟩
    · -- the rounding-disk center lies in the outline (pad region)
      left; left
      refine ⟨?_, ?_, ?_⟩
      · rw [hcx]; linarith
      · rw [hcx]; linarith
      · rw [hcy, abs_le]
        constructor <;> linarith
    · rw [sqDist_self]; positivity
    · -- nothing within `tip_fillet` of the center leaves the outline
      rintro ⟨w, ⟨hwb, hwnotS⟩, hdcw⟩
      apply hwnotS
      have hcb := coord_bounds hdcw hf.le
      have hcb1 := abs_le.mp hcb.1
      have hcb2 := abs_le.mp hcb.2
      rw [hcx] at hcb1
      rw [hcy] at hcb2
      left; left
      refine ⟨by linarith [hcb1.2], by linarith [hcb1.1], ?_⟩
      rw [abs_le]
      constructor
      · linarith [hcb2.2]
      · linarith [hcb2.1]

/-- At the bottom pad corner, the fillet sequence of `make_claw` likewise
carves the outline down to exactly the inscribed quarter disk. -/
theorem XYTip.fillet_bot_square (p : XYTip.Opts)
    (htaper : 0 < p.taper_height) (hth : 0 < p.tip_height)
    (hf : 0 < p.tip_fillet) (hf2 : 2 * p.tip_fillet < p.tip_width)
    (hfth : 2 * p.tip_fillet < p.tip_height) :
    TurtleQubit.filletSeq (XYTip.outline p) p.tip_fillet ∩ XYTip.squareBot p =
      (XYTip.outline p ∩ XYTip.squareBot p) ∩ diskAt (XYTip.cBot p) p.tip_fillet := by
  have hcx : (XYTip.cBot p).1 = -(p.tip_height + p.taper_height - p.tip_fillet) := rfl
  have hcy : (XYTip.cBot p).2 = -(p.tip_width / 2 - p.tip_fillet) := rfl
  ext u
  constructor
  · rintro ⟨⟨hS, z, ⟨hz2, hznot⟩, hdz⟩, hsq⟩
    refine ⟨⟨hS, hsq⟩, ?_⟩
    rw [mem_diskAt]
    by_contra hdc
    push_neg at hdc
    obtain ⟨hs1, hs2, hs3, hs4⟩ := hsq
    by_cases hzS : z ∈ XYTip.outline p
    · have hcb := coord_bounds hdz hf.le
      have hcb1 := abs_le.mp hcb.1
      have hcb2 := abs_le.mp hcb.2
      have hz1le : z.1 ≤ -(p.tip_height + p.taper_height) + 2 * p.tip_fillet := by
        linarith [hcb1.1]
      have hz1lt : z.1 < -p.taper_height := by linarith
      have hzw := abs_le.mp (XYTip.mem_outline_pad_band hzS hz1lt.le htaper)
      by_cases hc1 : z.1 < -(p.tip_height + p.taper_height - p.tip_fillet)
      · refine hznot ⟨(z.1 - p.tip_fillet, z.2), ⟨⟨z, hzS, ?_⟩, ?_⟩, ?_⟩
        · have heq : sqDist (z.1 - p.tip_fillet, z.2) z = p.tip_fillet ^ 2 := by
            rw [sqDist]; ring
          rw [heq]
        · intro hw
          have hlow := XYTip.mem_outline_x_lower hw hth.le htaper.le
          dsimp only at hlow
          linarith
        · have heq : sqDist z (z.1 - p.tip_fillet, z.2) = p.tip_fillet ^ 2 := by
            rw [sqDist]; ring
          rw [heq]
      · by_cases hc2 : z.2 < -(p.tip_width / 2 - p.tip_fillet)
        · refine hznot ⟨(z.1, z.2 - p.tip_fillet), ⟨⟨z, hzS, ?_⟩, ?_⟩, ?_⟩
          · have heq : sqDist (z.1, z.2 - p.tip_fillet) z = p.tip_fillet ^ 2 := by
              rw [sqDist]; ring
            rw [heq]
          · intro hw
            have hband := XYTip.mem_outline_pad_band hw (by dsimp only; linarith) htaper
            dsimp only at hband
            have hband' := abs_le.mp hband
            linarith [hband'.1]
          · have heq : sqDist z (z.1, z.2 - p.tip_fillet) = p.tip_fillet ^ 2 := by
              rw [sqDist]; ring
            rw [heq]
        · push_neg at hc1 hc2
          rw [sqDist] at hdz
          rw [sqDist, hcx, hcy] at hdc
          have ha : (0:ℝ) ≤ -(p.tip_height + p.taper_height - p.tip_fillet) - u.1 := by
            linarith
          have hb : (0:ℝ) ≤ z.1 - -(p.tip_height + p.taper_height - p.tip_fillet) := by
            linarith
          have hd : (0:ℝ) ≤ -(p.tip_width / 2 - p.tip_fillet) - u.2 := by linarith
          have he : (0:ℝ) ≤ z.2 - -(p.tip_width / 2 - p.tip_fillet) := by linarith
          nlinarith [mul_nonneg hb ha, mul_nonneg he hd, sq_nonneg
            (z.1 - -(p.tip_height + p.taper_height - p.tip_fillet)),
            sq_nonneg (z.2 - -(p.tip_width / 2 - p.tip_fillet))]
    · exact hznot ⟨z, ⟨⟨u, hS, by rw [sqDist_comm]; exact hdz⟩, hzS⟩, by
        rw [sqDist_self]; positivity⟩
  · rintro ⟨⟨hS, hsq⟩, hdisk⟩
    rw [mem_diskAt] at hdisk
    refine ⟨⟨hS, XYTip.cBot p, ⟨⟨XYTip.cBot p, ?_, ?_⟩, ?_⟩, hdisk⟩, hsq⟩
    · left; left
      refine ⟨?_, ?_, ?_⟩
      · rw [hcx]; linarith
      · rw [hcx]; linarith
      · rw [hcy, abs_le]
        constructor <;> linarith
    · rw [sqDist_self]; positivity
    · rintro ⟨w, ⟨hwb, hwnotS⟩, hdcw⟩
      apply hwnotS
      have hcb := coord_bounds hdcw hf.le
      have hcb1 := abs_le.mp hcb.1
      have hcb2 := abs_le.mp hcb.2
      rw [hcx] at hcb1
      rw [hcy] at hcb2
      left; left
      refine ⟨by linarith [hcb1.2], by linarith [hcb1.1], ?_⟩
      rw [abs_le]
      constructor
      · linarith [hcb2.2]
      · linarith [hcb2.1]

/-- Inside the top corner square, the subtraction-based rounding of
`XYTip.make` is the outline intersected with the rounding disk. -/
theorem XYTip.xy_tip_top_square (p : XYTip.Opts)
    (hf2 : 2 * p.tip_fillet < p.tip_width) :
    XYTip.xy_tip p ∩ XYTip.squareTop p =
      (XYTip.outline p ∩ XYTip.squareTop p) ∩ diskAt (XYTip.cTop p) p.tip_fillet := by
  ext u
  constructor
  · rintro ⟨⟨hS, hneg⟩, hsq⟩
    refine ⟨⟨hS, hsq⟩, ?_⟩
    by_contra hd
    exact hneg (Or.inl ⟨hsq, hd⟩)
  · rintro ⟨⟨hS, hsq⟩, hdisk⟩
    refine ⟨⟨hS, ?_⟩, hsq⟩
    rintro (⟨hsqT, hdT⟩ | ⟨hsqB, hdB⟩)
    · exact hdT hdisk
    · obtain ⟨-, -, hs3, -⟩ := hsq
      obtain ⟨-, -, -, hb4⟩ := hsqB
      linarith

/-- Inside the bottom corner square, the subtraction-based rounding of
`XYTip.make` is the outline intersected with the rounding disk. -/
theorem XYTip.xy_tip_bot_square (p : XYTip.Opts)
    (hf2 : 2 * p.tip_fillet < p.tip_width) :
    XYTip.xy_tip p ∩ XYTip.squareBot p =
      (XYTip.outline p ∩ XYTip.squareBot p) ∩ diskAt (XYTip.cBot p) p.tip_fillet := by
  ext u
  constructor
  · rintro ⟨⟨hS, hneg⟩, hsq⟩
    refine ⟨⟨hS, hsq⟩, ?_⟩
    by_contra hd
    exact hneg (Or.inr ⟨hsq, hd⟩)
  · rintro ⟨⟨hS, hsq⟩, hdisk⟩
    refine ⟨⟨hS, ?_⟩, hsq⟩
    rintro (⟨hsqT, hdT⟩ | ⟨hsqB, hdB⟩)
    · obtain ⟨-, -, hs3, -⟩ := hsqT
      obtain ⟨-, -, -, hb4⟩ := hsq
      linarith
    · exact hdB hdisk

/-- Counterexample for C6: at valid parameters (`tip_fillet` smaller than half
of `tip_width`), the corner-subtraction shape of `XYTip.make` and the
grow/intersect/shrink fillet sequence of `make_claw` applied to the whole
outline are not the same polygon: the lead corner `(0.01, 0.005)` survives the
subtraction method but is removed by the fillet sequence (which rounds every
convex corner, not only the two pad corners). -/
theorem c6_rounding_equivalence_counterexample :
    2 * xyDefault.tip_fillet < xyDefault.tip_width ∧
    ((0.01 : ℝ), (0.005 : ℝ)) ∈ XYTip.xy_tip xyDefault ∧
    ((0.01 : ℝ), (0.005 : ℝ)) ∉
      TurtleQubit.filletSeq (XYTip.outline xyDefault) xyDefault.tip_fillet := by
  have hq : ((0.01 : ℝ), (0.005 : ℝ)) ∈ XYTip.outline xyDefault := by
    right
    refine ⟨by norm_num, by norm_num [xyDefault], ?_⟩
    norm_num [xyDefault, abs_le]
  refine ⟨by norm_num [xyDefault], ⟨hq, ?_⟩, ?_⟩
  · rintro (⟨hsq, -⟩ | ⟨hsq, -⟩)
    · have := hsq.2.1
      norm_num [xyDefault] at this
    · have := hsq.2.1
      norm_num [xyDefault] at this
  · rintro ⟨-, z, ⟨hz2, hznot⟩, hdq⟩
    have hf : xyDefault.tip_fillet = 0.001 := rfl
    rw [hf] at hdq
    by_cases hzS : z ∈ XYTip.outline xyDefault
    · have hcb := coord_bounds hdq (by norm_num)
      have hcb1 := abs_le.mp hcb.1
      have hcb2 := abs_le.mp hcb.2
      dsimp only at hcb1 hcb2
      have hz' := hzS
      rcases hz' with ((h | h) | h)
      · have := h.2.1
        norm_num [xyDefault] at this
        linarith [hcb1.2]
      · have := h.2.1
        norm_num [xyDefault] at this
        linarith [hcb1.2]
      · obtain ⟨hz0, hzl, hzw⟩ := h
        norm_num [xyDefault] at hzl hzw
        have hzw' := abs_le.mp hzw
        by_cases hz1 : z.1 ≤ 0.009
        · have hxgap : (0.001 : ℝ) ≤ 0.01 - z.1 := by linarith
          rw [sqDist] at hdq
          dsimp only at hdq
          have hz2eq : z.2 = 0.005 := by nlinarith [sq_nonneg (0.005 - z.2)]
          have hz1eq : z.1 = 0.009 := by nlinarith [sq_nonneg (0.01 - z.1 - 0.001)]
          refine hznot ⟨((0.009 : ℝ), (0.006 : ℝ)), ⟨⟨z, hzS, ?_⟩, ?_⟩, ?_⟩
          · rw [hf, sqDist, hz1eq, hz2eq]
            norm_num
          · intro hw
            rcases hw with ((h | h) | h)
            · have := h.2.1
              norm_num [xyDefault] at this
            · have := h.2.1
              norm_num [xyDefault] at this
            · have := h.2.2
              norm_num [xyDefault, abs_le] at this
          · rw [hf, sqDist, hz1eq, hz2eq]
            norm_num
        · push_neg at hz1
          refine hznot ⟨(z.1 + 0.001, z.2), ⟨⟨z, hzS, ?_⟩, ?_⟩, ?_⟩
          · rw [hf]
            have heq : sqDist (z.1 + 0.001, z.2) z = (0.001 : ℝ) ^ 2 := by
              rw [sqDist]; ring
            rw [heq]
          · intro hw
            rcases hw with ((h | h) | h)
            · have := h.2.1
              norm_num [xyDefault] at this
              linarith
            · have := h.2.1
              norm_num [xyDefault] at this
              linarith
            · have := h.2.1
              norm_num [xyDefault] at this
              linarith
          · rw [hf]
            have heq : sqDist z (z.1 + 0.001, z.2) = (0.001 : ℝ) ^ 2 := by
              rw [sqDist]; ring
            rw [heq]
    · exact hznot ⟨z, ⟨⟨((0.01 : ℝ), (0.005 : ℝ)), hq, by
        rw [sqDist_comm, hf]; exact hdq⟩, hzS⟩, by rw [sqDist_self, hf]; positivity⟩

/-- C6 (amended): within each pad corner square the two rounding methods agree
exactly — the fillet sequence of `make_claw` applied to the `XYTip` outline
equals the corner-square-minus-quarter-circle subtraction of `XYTip.make`
there, for every `tip_fillet` smaller than half of `tip_width` (and than half
of `tip_height`); globally the two differ, because the fillet sequence also
rounds the outline's other convex corners (e.g. the lead corners), which the
subtraction method leaves square. -/
theorem c6_corner_rounding_equivalence (p : XYTip.Opts)
    (htaper : 0 < p.taper_height) (hth : 0 < p.tip_height)
    (hf : 0 < p.tip_fillet) (hf2 : 2 * p.tip_fillet < p.tip_width)
    (hfth : 2 * p.tip_fillet < p.tip_height) :
    TurtleQubit.filletSeq (XYTip.outline p) p.tip_fillet ∩ XYTip.squareTop p =
      XYTip.xy_tip p ∩ XYTip.squareTop p ∧
    TurtleQubit.filletSeq (XYTip.outline p) p.tip_fillet ∩ XYTip.squareBot p =
      XYTip.xy_tip p ∩ XYTip.squareBot p := by
  constructor
  · rw [XYTip.fillet_top_square p htaper hth hf hf2 hfth, XYTip.xy_tip_top_square p hf2]
  · rw [XYTip.fillet_bot_square p htaper hth hf hf2 hfth, XYTip.xy_tip_bot_square p hf2]

/-- Witness for C6 (amended): the corner-square agreement at the concrete
`XYTip` option values. -/
theorem c6_corner_rounding_equivalence_witness :
    TurtleQubit.filletSeq (XYTip.outline xyDefault) xyDefault.tip_fillet ∩
        XYTip.squareTop xyDefault =
      XYTip.xy_tip xyDefault ∩ XYTip.squareTop xyDefault ∧
    TurtleQubit.filletSeq (XYTip.outline xyDefault) xyDefault.tip_fillet ∩
        XYTip.squareBot xyDefault =
      XYTip.xy_tip xyDefault ∩ XYTip.squareBot xyDefault :=
  c6_corner_rounding_equivalence xyDefault (by norm_num [xyDefault])
    (by norm_num [xyDefault]) (by norm_num [xyDefault]) (by norm_num [xyDefault])
    (by norm_num [xyDefault])

end
